import Mathlib

/-
Verification of the stroke-to-fill core (src/stroke.rs) of the raqote fork.

The Rust code works on `f32`; this development idealises `f32` arithmetic as
exact real arithmetic (`ℝ`), with `f32::hypot x y` modelled as
`Real.sqrt (x*x + y*y)`.  Rust panics (`assert!`, `panic!`) are modelled by
an explicit error type threaded through `Except`.
-/

namespace Stroke

noncomputable section

/-- A 2D position, mirroring `type Point = Point2D<f32>`. -/
structure Point where
  x : ℝ
  y : ℝ


/-- A 2D direction/offset, mirroring `type Vector = Vector2D<f32>`. -/
structure Vector where
  x : ℝ
  y : ℝ


instance : DecidableEq Vector := fun a b =>
  decidable_of_iff (a.x = b.x ∧ a.y = b.y) (by cases a; cases b; simp)

/-- The panics of the stroking core: the `assert!(ulen != 0.)` in
`compute_normal`, the `panic!("trouble")` in `line_intersection`, and the
`panic!("Only flat paths handled")` on curve operations. -/
inductive StrokeError where
  | zeroLengthSegment
  | parallelLines
  | onlyFlatPaths
deriving DecidableEq

/-- Path operations, mirroring `PathOp` of the path builder module.
Modelled from the spec: the path is an ordered sequence of
MoveTo/LineTo/QuadTo/CubicTo/Close operations. -/
inductive PathOp where
  | MoveTo (x y : ℝ)
  | LineTo (x y : ℝ)
  | QuadTo (cx cy x y : ℝ)
  | CubicTo (c1x c1y c2x c2y x y : ℝ)
  | Close


/-- A path, mirroring `Path { ops }`.  Modelled from the spec: the builder
abstraction accumulates move/line/cubic/close operations into an output path;
the builder itself is represented as the accumulated `List PathOp`, each
primitive appending one operation, and `finish` wrapping the list. -/
structure Path where
  ops : List PathOp

/-- Mirrors `StrokeStyle`. -/
inductive LineCap where
  | Round
  | Square
  | Butt
deriving DecidableEq

/-- Mirrors `LineJoin`. -/
inductive LineJoin where
  | Round
  | Mitre
  | Bevel
deriving DecidableEq

/-- Mirrors `StrokeStyle`. -/
structure StrokeStyle where
  width : ℝ
  cap : LineCap
  join : LineJoin
  mitre_limit : ℝ
  dash_array : List ℝ
  dash_offset : ℝ

/-- `f32::hypot`, idealised: the euclidean length of `(x, y)`. -/
def hypot (x y : ℝ) : ℝ := Real.sqrt (x * x + y * y)

/-- Mirrors `compute_normal`: `ux`, `uy`, `ulen` inlined; the
`assert!(ulen != 0.)` becomes the error branch. -/
def compute_normal (p0 p1 : Point) : Except StrokeError Vector :=
  if hypot (p1.x - p0.x) (p1.y - p0.y) = 0 then
    .error .zeroLengthSegment
  else
    .ok ⟨-(p1.y - p0.y) / hypot (p1.x - p0.x) (p1.y - p0.y),
         (p1.x - p0.x) / hypot (p1.x - p0.x) (p1.y - p0.y)⟩

/-- Mirrors `flip`. -/
def flip (v : Vector) : Vector := ⟨-v.x, -v.y⟩

/-- Mirrors `dot`. -/
def dot (a b : Vector) : ℝ := a.x * b.x + a.y * b.y

/-- Mirrors `perp` (rotate 90 degrees to the left). -/
def perp (v : Vector) : Vector := ⟨-v.y, v.x⟩

/-- Mirrors `swap` (rotate 90 degrees to the right). -/
def swap (a : Vector) : Vector := ⟨a.y, -a.x⟩

/-- Mirrors `unperp`. -/
def unperp (a : Vector) : Vector := swap a

/-- Mirrors `arc_segment`: appends one `CubicTo` approximating the arc from
angle vector `a` to `b` around `(xc, yc)`.  `mid /= mid.length()` uses the
euclidean length, as in euclid's `Vector2D::length`. -/
def arc_segment (path : List PathOp) (xc yc radius : ℝ) (a b : Vector) :
    List PathOp :=
  let r_sin_A := radius * a.y
  let r_cos_A := radius * a.x
  let r_sin_B := radius * b.y
  let r_cos_B := radius * b.x
  let mid0 : Vector := ⟨a.x + b.x, a.y + b.y⟩
  let mid : Vector := ⟨mid0.x / hypot mid0.x mid0.y, mid0.y / hypot mid0.x mid0.y⟩
  let mid2 : Vector := ⟨a.x + mid.x, a.y + mid.y⟩
  let h := (4 / 3) * dot (perp a) mid2 / dot a mid2
  path ++ [.CubicTo (xc + r_cos_A - h * r_sin_A) (yc + r_sin_A + h * r_cos_A)
                    (xc + r_cos_B + h * r_sin_B) (yc + r_sin_B - h * r_cos_B)
                    (xc + r_cos_B) (yc + r_sin_B)]

/-- Mirrors `bisect`. -/
def bisect (a b : Vector) : Vector :=
  let mid : Vector :=
    if 0 ≤ dot a b then ⟨a.x + b.x, a.y + b.y⟩
    else perp ⟨-a.x + b.x, -a.y + b.y⟩
  let len := Real.sqrt (mid.x * mid.x + mid.y * mid.y)
  ⟨mid.x / len, mid.y / len⟩

/-- Mirrors `arc`: two `arc_segment`s through the bisector. -/
def arc (path : List PathOp) (xc yc radius : ℝ) (a b : Vector) : List PathOp :=
  arc_segment (arc_segment path xc yc radius a (bisect a b)) xc yc radius
    (bisect a b) b

/-- Mirrors `join_round` (present in the source, unused by `join_line`,
which calls `arc` directly). -/
def join_round (path : List PathOp) (center : Point) (a b : Vector)
    (radius : ℝ) : List PathOp :=
  arc path center.x center.y radius a b

/-- Mirrors `cap_line`. -/
def cap_line (dest : List PathOp) (style : StrokeStyle) (pt : Point)
    (normal : Vector) : List PathOp :=
  let offset := style.width / 2
  match style.cap with
  | .Butt => dest
  | .Round =>
      (arc (dest ++ [.MoveTo (pt.x + normal.x * offset) (pt.y + normal.y * offset)])
        pt.x pt.y offset normal (flip normal)) ++ [.Close]
  | .Square =>
      let v : Vector := ⟨normal.y, -normal.x⟩
      let e : Point := ⟨pt.x + v.x * offset, pt.y + v.y * offset⟩
      dest ++ [.MoveTo (pt.x + normal.x * offset) (pt.y + normal.y * offset),
               .LineTo (e.x + normal.x * offset) (e.y + normal.y * offset),
               .LineTo (e.x + -normal.x * offset) (e.y + -normal.y * offset),
               .LineTo (pt.x - normal.x * offset) (pt.y - normal.y * offset),
               .Close]

/-- Mirrors `bevel`. -/
def bevel (dest : List PathOp) (style : StrokeStyle) (pt : Point)
    (s1_normal s2_normal : Vector) : List PathOp :=
  let offset := style.width / 2
  dest ++ [.MoveTo (pt.x + s1_normal.x * offset) (pt.y + s1_normal.y * offset),
           .LineTo (pt.x + s2_normal.x * offset) (pt.y + s2_normal.y * offset),
           .LineTo pt.x pt.y,
           .Close]

/-- Mirrors `line_intersection`; the `panic!("trouble")` on a zero
perp-dot denominator becomes the error branch. -/
def line_intersection (A : Point) (a_perp : Vector) (B : Point)
    (b_perp : Vector) : Except StrokeError Point :=
  let a := unperp a_perp
  let c : Vector := ⟨B.x - A.x, B.y - A.y⟩
  let denom := dot b_perp a
  if denom = 0 then .error .parallelLines
  else
    let t := dot b_perp c / denom
    .ok ⟨A.x + t * a.x, A.y + t * a.y⟩

/-- Mirrors `is_interior_angle`. -/
def is_interior_angle (a b : Vector) : Prop :=
  dot (perp a) b > 0 ∨ a = b

instance (a b : Vector) : Decidable (is_interior_angle a b) :=
  decidable_of_iff (dot (perp a) b > 0 ∨ a = b) Iff.rfl

/-- The body of `join_line` after the interior-angle adjustment (the single
`match style.join` of the source, on the already-adjusted normals). -/
def join_line_exterior (dest : List PathOp) (style : StrokeStyle) (pt : Point)
    (s1_normal s2_normal : Vector) : Except StrokeError (List PathOp) :=
  let offset := style.width / 2
  match style.join with
  | .Round =>
      .ok ((arc (dest ++ [.MoveTo (pt.x + s1_normal.x * offset)
                                  (pt.y + s1_normal.y * offset)])
              pt.x pt.y offset s1_normal s2_normal)
            ++ [.LineTo pt.x pt.y, .Close])
  | .Mitre =>
      let in_dot_out := -s1_normal.x * s2_normal.x + -s1_normal.y * s2_normal.y
      if 2 ≤ style.mitre_limit * style.mitre_limit * (1 - in_dot_out) then
        let start : Point := ⟨pt.x + s1_normal.x * offset,
                              pt.y + s1_normal.y * offset⟩
        let e : Point := ⟨pt.x + s2_normal.x * offset,
                          pt.y + s2_normal.y * offset⟩
        match line_intersection start s1_normal e s2_normal with
        | .error err => .error err
        | .ok intersection =>
            .ok (dest ++ [.MoveTo start.x start.y,
                          .LineTo intersection.x intersection.y,
                          .LineTo e.x e.y,
                          .LineTo pt.x pt.y,
                          .Close])
      else
        .ok (bevel dest style pt s1_normal s2_normal)
  | .Bevel =>
      .ok (bevel dest style pt s1_normal s2_normal)

/-- Mirrors `join_line`: flipping both normals and swapping their roles on an
interior angle amounts to passing `(flip s2, flip s1)`. -/
def join_line (dest : List PathOp) (style : StrokeStyle) (pt : Point)
    (s1_normal s2_normal : Vector) : Except StrokeError (List PathOp) :=
  if is_interior_angle s1_normal s2_normal then
    join_line_exterior dest style pt (flip s2_normal) (flip s1_normal)
  else
    join_line_exterior dest style pt s1_normal s2_normal

/-- The segment offset quad emitted by `stroke_to_path` for the segment
`p0 → p1` with the given normal: four corners at `p0 ± normal·half_width`
and `p1 ± normal·half_width`. -/
def quadOps (p0 p1 : Point) (normal : Vector) (half_width : ℝ) : List PathOp :=
  [.MoveTo (p0.x + normal.x * half_width) (p0.y + normal.y * half_width),
   .LineTo (p1.x + normal.x * half_width) (p1.y + normal.y * half_width),
   .LineTo (p1.x + -normal.x * half_width) (p1.y + -normal.y * half_width),
   .LineTo (p0.x - normal.x * half_width) (p0.y - normal.y * half_width),
   .Close]

/-- The mutable locals of `stroke_to_path`'s loop: `cur_x`/`cur_y`,
`last_normal`, `start_point`, and the output builder `stroked_path`. -/
structure WalkState where
  cur : Point
  last_normal : Vector
  start_point : Option (Point × Vector)
  dest : List PathOp

/-- The loop state before the first operation: current point `(0, 0)`,
`last_normal = Vector::zero()`, no open subpath, empty builder. -/
def initState : WalkState := ⟨⟨0, 0⟩, ⟨0, 0⟩, none, []⟩

/-- One iteration of the `for op in &path.ops` loop of `stroke_to_path`. -/
def stroke_step (style : StrokeStyle) (s : WalkState) (op : PathOp) :
    Except StrokeError WalkState :=
  let half_width := style.width / 2
  match op with
  | .MoveTo x y =>
      let dest :=
        match s.start_point with
        | some (point, normal) =>
            cap_line (cap_line s.dest style s.cur s.last_normal) style point
              (flip normal)
        | none => s.dest
      .ok ⟨⟨x, y⟩, s.last_normal, none, dest⟩
  | .LineTo x y =>
      match compute_normal s.cur ⟨x, y⟩ with
      | .error e => .error e
      | .ok normal =>
          let joined : Except StrokeError (List PathOp) :=
            match s.start_point with
            | none => .ok s.dest
            | some _ => join_line s.dest style s.cur s.last_normal normal
          match joined with
          | .error e => .error e
          | .ok dest =>
              let start_point :=
                match s.start_point with
                | none => some (s.cur, normal)
                | some sp => some sp
              .ok ⟨⟨x, y⟩, normal, start_point,
                   dest ++ quadOps s.cur ⟨x, y⟩ normal half_width⟩
  | .Close =>
      match s.start_point with
      | some (point, normal) =>
          match compute_normal s.cur point with
          | .error e => .error e
          | .ok ln =>
              let dest := s.dest ++ quadOps s.cur point normal half_width
              match join_line dest style point ln normal with
              | .error e => .error e
              | .ok dest => .ok ⟨s.cur, s.last_normal, s.start_point, dest⟩
      | none => .ok s
  | .QuadTo _ _ _ _ => .error .onlyFlatPaths
  | .CubicTo _ _ _ _ _ _ => .error .onlyFlatPaths

/-- The `for` loop of `stroke_to_path`, with panics short-circuiting. -/
def walk (style : StrokeStyle) : WalkState → List PathOp →
    Except StrokeError WalkState
  | s, [] => .ok s
  | s, op :: ops =>
      match stroke_step style s op with
      | .error e => .error e
      | .ok s' => walk style s' ops

/-- Mirrors `stroke_to_path`: run the loop, then cap a still-open subpath
(end with `last_normal`, beginning with `flip normal`), then `finish`. -/
def stroke_to_path (path : Path) (style : StrokeStyle) :
    Except StrokeError Path :=
  match walk style initState path.ops with
  | .error e => .error e
  | .ok s =>
      match s.start_point with
      | some (point, normal) =>
          .ok ⟨cap_line (cap_line s.dest style s.cur s.last_normal) style point
                 (flip normal)⟩
      | none => .ok ⟨s.dest⟩

/-- Number of closed contours in an operation list (one `Close` each). -/
def countContours (ops : List PathOp) : ℕ :=
  ops.countP fun op => match op with | .Close => true | _ => false

end

end Stroke

namespace Stroke

/-- A width-1 stroke style with Butt caps and Bevel joins. -/
noncomputable def bsty : StrokeStyle := ⟨1, .Butt, .Bevel, 10, [], 0⟩

/-- A width-1 stroke style with Square caps and Bevel joins. -/
noncomputable def sqsty : StrokeStyle := ⟨1, .Square, .Bevel, 10, [], 0⟩

/-- A width-1 stroke style with Butt caps, Mitre joins, mitre limit 10. -/
noncomputable def msty : StrokeStyle := ⟨1, .Butt, .Mitre, 10, [], 0⟩

lemma hypot_eq (x y r : ℝ) (h0 : 0 ≤ r) (h : x * x + y * y = r * r) :
    hypot x y = r := by
  rw [hypot, h, Real.sqrt_mul_self h0]

lemma compute_normal_mk (x0 y0 x1 y1 r : ℝ) (hr : 0 < r)
    (h : (x1 - x0) * (x1 - x0) + (y1 - y0) * (y1 - y0) = r * r) :
    compute_normal ⟨x0, y0⟩ ⟨x1, y1⟩ = .ok ⟨-(y1 - y0) / r, (x1 - x0) / r⟩ := by
  rw [compute_normal]
  dsimp only
  rw [hypot_eq _ _ r hr.le h, if_neg hr.ne']

lemma walk_append (style : StrokeStyle) (s : WalkState) (l1 l2 : List PathOp) :
    walk style s (l1 ++ l2) =
      match walk style s l1 with
      | .error e => .error e
      | .ok s' => walk style s' l2 := by
  induction l1 generalizing s with
  | nil => simp [walk]
  | cons op ops ih =>
      simp only [List.cons_append, walk]
      cases stroke_step style s op with
      | error e => simp
      | ok s' => simp [ih]

/-- C6: `compute_normal(p0, p1)` fails (with the zero-length-segment
condition) if and only if `hypot(p1.x − p0.x, p1.y − p0.y)` is exactly zero;
otherwise it returns the left unit normal `(−dy/len, dx/len)` of the
direction `p1 − p0`. -/
theorem compute_normal_spec (p0 p1 : Point) :
    (compute_normal p0 p1 = .error .zeroLengthSegment ↔
      hypot (p1.x - p0.x) (p1.y - p0.y) = 0) ∧
    (hypot (p1.x - p0.x) (p1.y - p0.y) ≠ 0 →
      compute_normal p0 p1 =
        .ok ⟨-(p1.y - p0.y) / hypot (p1.x - p0.x) (p1.y - p0.y),
             (p1.x - p0.x) / hypot (p1.x - p0.x) (p1.y - p0.y)⟩) := by
  constructor
  · constructor
    · intro h
      by_contra hne
      rw [compute_normal, if_neg hne] at h
      exact Except.noConfusion h
    · intro h
      rw [compute_normal, if_pos h]
  · intro h
    rw [compute_normal, if_neg h]

/-- Witness for C6 at the 3-4-5 segment `(0,0) → (3,4)`. -/
theorem compute_normal_spec_witness :
    compute_normal ⟨0, 0⟩ ⟨3, 4⟩ = .ok ⟨-(4 : ℝ) / 5, 3 / 5⟩ := by
  have h5 : hypot ((⟨3, 4⟩ : Point).x - (⟨0, 0⟩ : Point).x)
      ((⟨3, 4⟩ : Point).y - (⟨0, 0⟩ : Point).y) = 5 :=
    hypot_eq _ _ 5 (by norm_num) (by norm_num)
  have h := (compute_normal_spec ⟨0, 0⟩ ⟨3, 4⟩).2 (by rw [h5]; norm_num)
  rw [h5] at h
  norm_num at h ⊢
  exact h

/-- C9: `is_interior_angle(s1, s2)` holds exactly when
`dot(perp(s1), s2) > 0` or `s1 = s2` (exact equality); a 0-degree turn is
classified interior and a 180-degree turn exterior; and whenever the turn is
interior, `join_line` builds the join with both normals flipped and their
roles swapped. -/
theorem interior_angle_spec :
    (∀ a b : Vector, is_interior_angle a b ↔ (dot (perp a) b > 0 ∨ a = b)) ∧
    (∀ a : Vector, is_interior_angle a a) ∧
    (∀ a : Vector, a ≠ ⟨0, 0⟩ → ¬ is_interior_angle a (flip a)) ∧
    (∀ (dest : List PathOp) (style : StrokeStyle) (pt : Point) (s1 s2 : Vector),
        is_interior_angle s1 s2 →
        join_line dest style pt s1 s2 =
          join_line_exterior dest style pt (flip s2) (flip s1)) := by
  refine ⟨fun a b => Iff.rfl, fun a => Or.inr rfl, ?_, ?_⟩
  · intro a ha h
    rcases h with h | h
    · have h0 : dot (perp a) (flip a) = 0 := by
        simp only [dot, perp, flip]
        ring
      rw [gt_iff_lt, h0] at h
      exact lt_irrefl 0 h
    · apply ha
      cases a with
      | mk ax ay =>
          simp only [flip, Vector.mk.injEq] at h ⊢
          constructor <;> linarith [h.1, h.2]
  · intro dest style pt s1 s2 h
    rw [join_line, if_pos h]

/-- Witness for C9: a 0-degree turn at `(0,1)` is interior and `join_line`
delegates to the flipped-and-swapped exterior form; `(1,0)` against its flip
(a 180-degree turn) is exterior. -/
theorem interior_angle_spec_witness :
    is_interior_angle ⟨0, 1⟩ ⟨0, 1⟩ ∧
    ((⟨1, 0⟩ : Vector) ≠ ⟨0, 0⟩ ∧ ¬ is_interior_angle ⟨1, 0⟩ (flip ⟨1, 0⟩)) ∧
    join_line [] bsty ⟨0, 0⟩ ⟨0, 1⟩ ⟨0, 1⟩ =
      join_line_exterior [] bsty ⟨0, 0⟩ (flip ⟨0, 1⟩) (flip ⟨0, 1⟩) :=
  ⟨interior_angle_spec.2.1 ⟨0, 1⟩,
   ⟨by simp, interior_angle_spec.2.2.1 ⟨1, 0⟩ (by simp)⟩,
   interior_angle_spec.2.2.2 [] bsty ⟨0, 0⟩ ⟨0, 1⟩ ⟨0, 1⟩
     (interior_angle_spec.2.1 ⟨0, 1⟩)⟩

/-- C7: a `QuadTo` or `CubicTo` operation, once reached (every operation
before it processed without failure), makes `stroke_to_path` fail with the
only-flat-paths-handled condition; nothing after it is processed. -/
theorem curves_unsupported (style : StrokeStyle) (ops1 ops2 : List PathOp)
    (op : PathOp)
    (hop : (∃ cx cy x y, op = .QuadTo cx cy x y) ∨
           (∃ c1x c1y c2x c2y x y, op = .CubicTo c1x c1y c2x c2y x y))
    (hpre : ∃ s, walk style initState ops1 = .ok s) :
    stroke_to_path ⟨ops1 ++ op :: ops2⟩ style = .error .onlyFlatPaths := by
  obtain ⟨s, hs⟩ := hpre
  have hstep : stroke_step style s op = .error .onlyFlatPaths := by
    rcases hop with ⟨cx, cy, x, y, rfl⟩ | ⟨a, b, c, d, x, y, rfl⟩ <;> rfl
  rw [stroke_to_path]
  rw [show (Path.mk (ops1 ++ op :: ops2)).ops = ops1 ++ op :: ops2 from rfl]
  rw [walk_append, hs]
  simp [walk, hstep]

/-- Witness for C7: a path reaching a `QuadTo` after a processed `MoveTo`. -/
theorem curves_unsupported_witness :
    stroke_to_path ⟨[.MoveTo 1 2, .QuadTo 3 4 5 6, .LineTo 7 8]⟩ bsty =
      .error .onlyFlatPaths := by
  have h := curves_unsupported bsty [.MoveTo 1 2] [.LineTo 7 8]
    (.QuadTo 3 4 5 6) (Or.inl ⟨3, 4, 5, 6, rfl⟩)
    ⟨⟨⟨1, 2⟩, ⟨0, 0⟩, none, []⟩, by simp [walk, stroke_step, initState]⟩
  exact h

end Stroke

namespace Stroke

lemma join_line_exterior_mitre_eq (dest : List PathOp) (style : StrokeStyle)
    (pt : Point) (s1 s2 : Vector) (hj : style.join = .Mitre) :
    join_line_exterior dest style pt s1 s2 =
      if 2 ≤ style.mitre_limit * style.mitre_limit *
          (1 - (-s1.x * s2.x + -s1.y * s2.y)) then
        match line_intersection
            ⟨pt.x + s1.x * (style.width / 2), pt.y + s1.y * (style.width / 2)⟩
            s1
            ⟨pt.x + s2.x * (style.width / 2), pt.y + s2.y * (style.width / 2)⟩
            s2 with
        | .error err => .error err
        | .ok inter =>
            .ok (dest ++
              [.MoveTo (pt.x + s1.x * (style.width / 2))
                       (pt.y + s1.y * (style.width / 2)),
               .LineTo inter.x inter.y,
               .LineTo (pt.x + s2.x * (style.width / 2))
                       (pt.y + s2.y * (style.width / 2)),
               .LineTo pt.x pt.y,
               .Close])
      else .ok (bevel dest style pt s1 s2) := by
  rw [join_line_exterior, hj]

lemma join_line_exterior_bevel_eq (dest : List PathOp) (style : StrokeStyle)
    (pt : Point) (s1 s2 : Vector) (hj : style.join = .Bevel) :
    join_line_exterior dest style pt s1 s2 =
      .ok (bevel dest style pt s1 s2) := by
  rw [join_line_exterior, hj]

lemma join_collinear_fail (d : List PathOp) (pt : Point) :
    join_line d msty pt ⟨0, 1⟩ ⟨0, 1⟩ = .error .parallelLines := by
  rw [join_line,
    if_pos (show is_interior_angle ⟨0, 1⟩ ⟨0, 1⟩ from Or.inr rfl)]
  rw [join_line_exterior_mitre_eq _ _ _ _ _ rfl]
  rw [if_pos (by norm_num [msty, flip])]
  rw [line_intersection]
  rw [if_pos (by norm_num [dot, unperp, swap, flip])]

lemma stroke_step_lineTo_first (style : StrokeStyle) (s : WalkState)
    (x y : ℝ) (normal : Vector)
    (hn : compute_normal s.cur ⟨x, y⟩ = .ok normal)
    (h0 : s.start_point = none) :
    stroke_step style s (.LineTo x y) =
      .ok ⟨⟨x, y⟩, normal, some (s.cur, normal),
           s.dest ++ quadOps s.cur ⟨x, y⟩ normal (style.width / 2)⟩ := by
  simp only [stroke_step, hn, h0]

lemma stroke_step_lineTo_join (style : StrokeStyle) (s : WalkState)
    (x y : ℝ) (normal : Vector) (sp : Point × Vector) (d : List PathOp)
    (hn : compute_normal s.cur ⟨x, y⟩ = .ok normal)
    (h0 : s.start_point = some sp)
    (hj : join_line s.dest style s.cur s.last_normal normal = .ok d) :
    stroke_step style s (.LineTo x y) =
      .ok ⟨⟨x, y⟩, normal, some sp,
           d ++ quadOps s.cur ⟨x, y⟩ normal (style.width / 2)⟩ := by
  simp only [stroke_step, hn, h0, hj]

lemma stroke_step_lineTo_join_fail (style : StrokeStyle) (s : WalkState)
    (x y : ℝ) (normal : Vector) (sp : Point × Vector) (e : StrokeError)
    (hn : compute_normal s.cur ⟨x, y⟩ = .ok normal)
    (h0 : s.start_point = some sp)
    (hj : join_line s.dest style s.cur s.last_normal normal = .error e) :
    stroke_step style s (.LineTo x y) = .error e := by
  simp only [stroke_step, hn, h0, hj]

lemma stroke_step_close (style : StrokeStyle) (s : WalkState)
    (point : Point) (normal ln : Vector) (d : List PathOp)
    (h0 : s.start_point = some (point, normal))
    (hn : compute_normal s.cur point = .ok ln)
    (hj : join_line (s.dest ++ quadOps s.cur point normal (style.width / 2))
            style point ln normal = .ok d) :
    stroke_step style s .Close = .ok ⟨s.cur, s.last_normal, s.start_point, d⟩ := by
  simp only [stroke_step, hn, h0, hj]

/-- C8: `line_intersection` fails (irrecoverably) exactly when the perp-dot
denominator of its two line normals is zero, and a valid flat path of two
collinear consecutive segments with the Mitre join style and a large mitre
limit makes `stroke_to_path` reach this failure, aborting the conversion. -/
theorem line_intersection_parallel_failure :
    (∀ (A : Point) (a_perp : Vector) (B : Point) (b_perp : Vector),
        line_intersection A a_perp B b_perp = .error .parallelLines ↔
          dot b_perp (unperp a_perp) = 0) ∧
    stroke_to_path ⟨[.MoveTo 0 0, .LineTo 1 0, .LineTo 2 0]⟩ msty =
      .error .parallelLines := by
  constructor
  · intro A a_perp B b_perp
    constructor
    · intro h
      by_contra hne
      rw [line_intersection] at h
      simp only [if_neg hne] at h
      exact Except.noConfusion h
    · intro h
      rw [line_intersection]
      simp only [if_pos h]
  · have hn1 : compute_normal (⟨0, 0⟩ : Point) ⟨1, 0⟩ = .ok ⟨0, 1⟩ := by
      have h := compute_normal_mk 0 0 1 0 1 one_pos (by norm_num)
      norm_num at h
      exact h
    have hn2 : compute_normal (⟨1, 0⟩ : Point) ⟨2, 0⟩ = .ok ⟨0, 1⟩ := by
      have h := compute_normal_mk 1 0 2 0 1 one_pos (by norm_num)
      norm_num at h
      exact h
    have e1 : stroke_step msty initState (.MoveTo 0 0) =
        .ok ⟨⟨0, 0⟩, ⟨0, 0⟩, none, []⟩ := rfl
    have e2 : stroke_step msty ⟨⟨0, 0⟩, ⟨0, 0⟩, none, []⟩ (.LineTo 1 0) =
        .ok ⟨⟨1, 0⟩, ⟨0, 1⟩, some (⟨0, 0⟩, ⟨0, 1⟩),
             [] ++ quadOps ⟨0, 0⟩ ⟨1, 0⟩ ⟨0, 1⟩ (msty.width / 2)⟩ :=
      stroke_step_lineTo_first msty _ 1 0 ⟨0, 1⟩ hn1 rfl
    have e3 : stroke_step msty
        ⟨⟨1, 0⟩, ⟨0, 1⟩, some (⟨0, 0⟩, ⟨0, 1⟩),
         [] ++ quadOps ⟨0, 0⟩ ⟨1, 0⟩ ⟨0, 1⟩ (msty.width / 2)⟩ (.LineTo 2 0) =
        .error .parallelLines :=
      stroke_step_lineTo_join_fail msty _ 2 0 ⟨0, 1⟩ (⟨0, 0⟩, ⟨0, 1⟩)
        .parallelLines hn2 rfl (join_collinear_fail _ _)
    rw [stroke_to_path]
    simp only [walk, e1, e2, e3]

end Stroke

namespace Stroke

lemma cap_line_butt (dest : List PathOp) (style : StrokeStyle) (pt : Point)
    (n : Vector) (hc : style.cap = .Butt) : cap_line dest style pt n = dest := by
  rw [cap_line, hc]

lemma seg10_eval (style : StrokeStyle) (hw : style.width = 1)
    (hc : style.cap = .Butt) :
    stroke_to_path ⟨[.MoveTo 0 0, .LineTo 10 0]⟩ style =
      .ok ⟨[.MoveTo 0 (1 / 2), .LineTo 10 (1 / 2), .LineTo 10 (-(1 / 2)),
            .LineTo 0 (-(1 / 2)), .Close]⟩ := by
  have hn : compute_normal (⟨0, 0⟩ : Point) ⟨10, 0⟩ = .ok ⟨0, 1⟩ := by
    have h := compute_normal_mk 0 0 10 0 10 (by norm_num) (by norm_num)
    norm_num at h
    exact h
  have e1 : stroke_step style initState (.MoveTo 0 0) =
      .ok ⟨⟨0, 0⟩, ⟨0, 0⟩, none, []⟩ := rfl
  have e2 := stroke_step_lineTo_first style ⟨⟨0, 0⟩, ⟨0, 0⟩, none, []⟩ 10 0
    ⟨0, 1⟩ hn rfl
  rw [stroke_to_path]
  simp only [walk, e1, e2]
  rw [cap_line_butt _ _ _ _ hc, cap_line_butt _ _ _ _ hc, hw]
  simp only [quadOps, List.nil_append]
  norm_num

/-- C5: stroking `MoveTo(0,0); LineTo(10,0)` with width 1 and Butt caps
yields exactly one contour, the closed quad with corners
`(0, 1/2), (10, 1/2), (10, −1/2), (0, −1/2)`, and no cap contours. -/
theorem butt_single_segment_quad (style : StrokeStyle) (hw : style.width = 1)
    (hc : style.cap = .Butt) :
    stroke_to_path ⟨[.MoveTo 0 0, .LineTo 10 0]⟩ style =
      .ok ⟨[.MoveTo 0 (1 / 2), .LineTo 10 (1 / 2), .LineTo 10 (-(1 / 2)),
            .LineTo 0 (-(1 / 2)), .Close]⟩ ∧
    countContours [.MoveTo 0 (1 / 2), .LineTo 10 (1 / 2), .LineTo 10 (-(1 / 2)),
      .LineTo 0 (-(1 / 2)), .Close] = 1 :=
  ⟨seg10_eval style hw hc, rfl⟩

/-- Witness for C5 at a concrete Butt/Bevel width-1 style. -/
theorem butt_single_segment_quad_witness :
    stroke_to_path ⟨[.MoveTo 0 0, .LineTo 10 0]⟩ bsty =
      .ok ⟨[.MoveTo 0 (1 / 2), .LineTo 10 (1 / 2), .LineTo 10 (-(1 / 2)),
            .LineTo 0 (-(1 / 2)), .Close]⟩ :=
  (butt_single_segment_quad bsty rfl rfl).1

/-- C10: a leading `LineTo` with no preceding `MoveTo` strokes the segment
from the implicit initial current point `(0, 0)`: prepending `MoveTo 0 0`
never changes the result, and a lone `LineTo x y` emits the offset quad from
`(0, 0)`, records `(0, 0)` as the subpath start, and caps both ends at end
of input like any other open subpath. -/
theorem implicit_origin_start :
    (∀ (style : StrokeStyle) (ops : List PathOp),
        stroke_to_path ⟨.MoveTo 0 0 :: ops⟩ style =
          stroke_to_path ⟨ops⟩ style) ∧
    (∀ (style : StrokeStyle) (x y : ℝ), hypot x y ≠ 0 →
        stroke_to_path ⟨[.LineTo x y]⟩ style =
          .ok ⟨cap_line
                 (cap_line
                   ([] ++ quadOps ⟨0, 0⟩ ⟨x, y⟩
                     ⟨-y / hypot x y, x / hypot x y⟩ (style.width / 2))
                   style ⟨x, y⟩ ⟨-y / hypot x y, x / hypot x y⟩)
                 style ⟨0, 0⟩ (flip ⟨-y / hypot x y, x / hypot x y⟩)⟩) := by
  constructor
  · intro style ops
    rw [stroke_to_path, stroke_to_path]
    rw [show walk style initState ((Path.mk (.MoveTo 0 0 :: ops)).ops) =
          walk style initState ((Path.mk ops).ops) from rfl]
  · intro style x y h
    have hn : compute_normal (⟨0, 0⟩ : Point) ⟨x, y⟩ =
        .ok ⟨-y / hypot x y, x / hypot x y⟩ := by
      rw [compute_normal]
      dsimp only
      simp only [sub_zero]
      rw [if_neg h]
    have e1 := stroke_step_lineTo_first style initState x y
      ⟨-y / hypot x y, x / hypot x y⟩ hn rfl
    rw [stroke_to_path]
    simp only [walk, e1]
    rfl

/-- Witness for C10: a lone `LineTo 10 0` strokes the segment from the
origin and (with Butt caps) emits just its offset quad. -/
theorem implicit_origin_start_witness :
    stroke_to_path ⟨[.LineTo 10 0]⟩ bsty =
      .ok ⟨[.MoveTo 0 (1 / 2), .LineTo 10 (1 / 2), .LineTo 10 (-(1 / 2)),
            .LineTo 0 (-(1 / 2)), .Close]⟩ := by
  have h10 : hypot 10 0 = 10 := hypot_eq 10 0 10 (by norm_num) (by norm_num)
  have h := implicit_origin_start.2 bsty 10 0 (by rw [h10]; norm_num)
  rw [h10] at h
  rw [h, cap_line_butt _ _ _ _ rfl, cap_line_butt _ _ _ _ rfl]
  simp only [quadOps, List.nil_append]
  norm_num [bsty]

end Stroke

namespace Stroke

/-- C4 counterexample: with collinear unit normals `s1 = s2 = (0,1)` and
mitre limit 10 the claim's condition `2 ≤ mitreLimit² · (1 − cosθ)` holds for
the adjusted normals, yet `join_line` fails in `line_intersection` instead of
emitting the four-point mitre fan. -/
theorem mitre_fan_panics_on_parallel :
    join_line [] msty ⟨0, 0⟩ ⟨0, 1⟩ ⟨0, 1⟩ = .error .parallelLines ∧
    2 ≤ msty.mitre_limit * msty.mitre_limit *
        (1 - -(dot (flip ⟨0, 1⟩) (flip ⟨0, 1⟩))) :=
  ⟨join_collinear_fail [] ⟨0, 0⟩, by norm_num [msty, dot, flip]⟩

/-- C4 (amended): in `join_line` with the Mitre join style, writing the
orientation-adjusted normals `t1, t2` and `cosθ = −dot(t1,t2)`, the
four-point mitre fan (s1-offset point, intersection of the two offset lines,
s2-offset point, vertex) is emitted exactly when
`2 ≤ mitreLimit² · (1 − cosθ)` AND the perp-dot denominator of the two
offset lines is nonzero (when it is zero and the bound holds, `join_line`
fails irrecoverably instead); a bevel triangle is emitted exactly when
`2 > mitreLimit² · (1 − cosθ)`; exact equality takes the mitre branch. -/
theorem mitre_vs_bevel_selection (dest : List PathOp) (style : StrokeStyle)
    (pt : Point) (s1 s2 : Vector) (hj : style.join = .Mitre)
    (t1 t2 : Vector)
    (ht1 : t1 = if is_interior_angle s1 s2 then flip s2 else s1)
    (ht2 : t2 = if is_interior_angle s1 s2 then flip s1 else s2) :
    ((∃ P : Point,
        line_intersection
            ⟨pt.x + t1.x * (style.width / 2), pt.y + t1.y * (style.width / 2)⟩
            t1
            ⟨pt.x + t2.x * (style.width / 2), pt.y + t2.y * (style.width / 2)⟩
            t2 = .ok P ∧
        join_line dest style pt s1 s2 =
          .ok (dest ++
            [.MoveTo (pt.x + t1.x * (style.width / 2))
                     (pt.y + t1.y * (style.width / 2)),
             .LineTo P.x P.y,
             .LineTo (pt.x + t2.x * (style.width / 2))
                     (pt.y + t2.y * (style.width / 2)),
             .LineTo pt.x pt.y,
             .Close]))
      ↔ (2 ≤ style.mitre_limit * style.mitre_limit * (1 - -(dot t1 t2)) ∧
         dot t2 (unperp t1) ≠ 0)) ∧
    (join_line dest style pt s1 s2 = .ok (bevel dest style pt t1 t2)
      ↔ ¬ 2 ≤ style.mitre_limit * style.mitre_limit * (1 - -(dot t1 t2))) := by
  have hjl : join_line dest style pt s1 s2 =
      join_line_exterior dest style pt t1 t2 := by
    rw [join_line]
    by_cases h : is_interior_angle s1 s2
    · rw [if_pos h, ht1, ht2, if_pos h, if_pos h]
    · rw [if_neg h, ht1, ht2, if_neg h, if_neg h]
  rw [hjl, join_line_exterior_mitre_eq _ _ _ _ _ hj]
  have hcond : -t1.x * t2.x + -t1.y * t2.y = -(dot t1 t2) := by
    simp only [dot]
    ring
  rw [hcond]
  by_cases hc : 2 ≤ style.mitre_limit * style.mitre_limit * (1 - -(dot t1 t2))
  · rw [if_pos hc]
    by_cases hd : dot t2 (unperp t1) = 0
    · have hli : line_intersection
          ⟨pt.x + t1.x * (style.width / 2), pt.y + t1.y * (style.width / 2)⟩
          t1
          ⟨pt.x + t2.x * (style.width / 2), pt.y + t2.y * (style.width / 2)⟩
          t2 = .error .parallelLines := by
        simp only [line_intersection]
        rw [if_pos hd]
      simp only [hli]
      constructor
      · constructor
        · rintro ⟨P, hP, -⟩
          exact Except.noConfusion hP
        · rintro ⟨-, hne⟩
          exact absurd hd hne
      · constructor
        · intro h
          exact Except.noConfusion h
        · intro h
          exact absurd hc h
    · obtain ⟨P0, hP0⟩ : ∃ P0, line_intersection
          ⟨pt.x + t1.x * (style.width / 2), pt.y + t1.y * (style.width / 2)⟩
          t1
          ⟨pt.x + t2.x * (style.width / 2), pt.y + t2.y * (style.width / 2)⟩
          t2 = .ok P0 := by
        simp only [line_intersection]
        rw [if_neg hd]
        exact ⟨_, rfl⟩
      simp only [hP0]
      constructor
      · constructor
        · intro _
          exact ⟨hc, hd⟩
        · intro _
          exact ⟨P0, rfl, rfl⟩
      · constructor
        · intro h
          exfalso
          have hlen := congrArg List.length (Except.ok.inj h)
          simp [bevel] at hlen
        · intro h
          exact absurd hc h
  · rw [if_neg hc]
    constructor
    · constructor
      · rintro ⟨P, -, hEq⟩
        exfalso
        have hlen := congrArg List.length (Except.ok.inj hEq)
        simp [bevel] at hlen
      · rintro ⟨h2, -⟩
        exact absurd h2 hc
    · exact ⟨fun _ => hc, fun _ => rfl⟩

/-- Witness for C4 (amended): a right-angle exterior turn takes the mitre
branch and emits the four-point fan with the computed intersection. -/
theorem mitre_vs_bevel_selection_witness :
    join_line [] msty ⟨0, 0⟩ ⟨0, 1⟩ ⟨-1, 0⟩ =
      .ok [.MoveTo (1 / 2) 0, .LineTo (1 / 2) (-(1 / 2)), .LineTo 0 (-(1 / 2)),
           .LineTo 0 0, .Close] := by
  have hint : is_interior_angle ⟨0, 1⟩ ⟨-1, 0⟩ :=
    Or.inl (by norm_num [dot, perp])
  have ht1 : (⟨1, 0⟩ : Vector) =
      (if is_interior_angle ⟨0, 1⟩ ⟨-1, 0⟩ then flip ⟨-1, 0⟩ else ⟨0, 1⟩) := by
    rw [if_pos hint]
    simp [flip]
  have ht2 : (⟨0, -1⟩ : Vector) =
      (if is_interior_angle ⟨0, 1⟩ ⟨-1, 0⟩ then flip ⟨0, 1⟩ else ⟨-1, 0⟩) := by
    rw [if_pos hint]
    simp [flip]
  have H := (mitre_vs_bevel_selection [] msty ⟨0, 0⟩ ⟨0, 1⟩ ⟨-1, 0⟩ rfl
    ⟨1, 0⟩ ⟨0, -1⟩ ht1 ht2).1
  obtain ⟨P, hP, hJ⟩ := H.mpr
    ⟨by norm_num [msty, dot], by norm_num [dot, unperp, swap]⟩
  have hPeq : P = ⟨1 / 2, -(1 / 2)⟩ := by
    simp only [line_intersection] at hP
    rw [if_neg (by norm_num [dot, unperp, swap])] at hP
    have h2 := Except.ok.inj hP
    rw [← h2]
    norm_num [msty, dot, unperp, swap, Point.mk.injEq]
  rw [hPeq] at hJ
  rw [hJ]
  norm_num [msty]

end Stroke

namespace Stroke

lemma join_line_bevel_interior (d : List PathOp) (style : StrokeStyle)
    (pt : Point) (s1 s2 : Vector) (hj : style.join = .Bevel)
    (h : is_interior_angle s1 s2) :
    join_line d style pt s1 s2 =
      .ok (bevel d style pt (flip s2) (flip s1)) := by
  rw [join_line, if_pos h, join_line_exterior_bevel_eq _ _ _ _ _ hj]

lemma cap_line_square (dest : List PathOp) (style : StrokeStyle) (pt : Point)
    (n : Vector) (hc : style.cap = .Square) :
    cap_line dest style pt n = dest ++
      [.MoveTo (pt.x + n.x * (style.width / 2)) (pt.y + n.y * (style.width / 2)),
       .LineTo (pt.x + n.y * (style.width / 2) + n.x * (style.width / 2))
               (pt.y + -n.x * (style.width / 2) + n.y * (style.width / 2)),
       .LineTo (pt.x + n.y * (style.width / 2) + -n.x * (style.width / 2))
               (pt.y + -n.x * (style.width / 2) + -n.y * (style.width / 2)),
       .LineTo (pt.x - n.x * (style.width / 2)) (pt.y - n.y * (style.width / 2)),
       .Close] := by
  rw [cap_line, hc]

@[simp] lemma moveTo_ne_lineTo (a b c d : ℝ) :
    PathOp.MoveTo a b ≠ PathOp.LineTo c d := fun h => PathOp.noConfusion h

@[simp] lemma moveTo_ne_close (a b : ℝ) :
    PathOp.MoveTo a b ≠ PathOp.Close := fun h => PathOp.noConfusion h

/-- The triangle path `MoveTo(0,0); LineTo(3,0); LineTo(3,4); Close`. -/
noncomputable def triPath : Path :=
  ⟨[.MoveTo 0 0, .LineTo 3 0, .LineTo 3 4, .Close]⟩

/-- The output `stroke_to_path` produces for `triPath` with `bsty`: segment
quad, bevel triangle, segment quad, then the closing-segment quad — offset by
the FIRST segment's normal `(0,1)`, not the closing segment's normal
`(4/5, −3/5)` — and the bevel triangle at the start point.  No caps are
emitted for the Butt style. -/
noncomputable def triOutOps : List PathOp :=
  [.MoveTo 0 (1 / 2), .LineTo 3 (1 / 2), .LineTo 3 (-(1 / 2)),
     .LineTo 0 (-(1 / 2)), .Close,
   .MoveTo (7 / 2) 0, .LineTo 3 (-(1 / 2)), .LineTo 3 0, .Close,
   .MoveTo (5 / 2) 0, .LineTo (5 / 2) 4, .LineTo (7 / 2) 4, .LineTo (7 / 2) 0,
     .Close,
   .MoveTo 3 (9 / 2), .LineTo 0 (1 / 2), .LineTo 0 (-(1 / 2)),
     .LineTo 3 (7 / 2), .Close,
   .MoveTo 0 (-(1 / 2)), .LineTo (-(2 / 5)) (3 / 10), .LineTo 0 0, .Close]

/-- C1 (code bug): processing `Close` on the triangle emits the quad for the
implicit closing segment `(3,4) → (0,0)` offset by the FIRST segment's normal
`(0,1)` (corners `(3, 9/2), (0, 1/2), (0, −1/2), (3, 7/2)`); the corner
`current_point + n·halfWidth` demanded by the claim for
`n = compute_normal((3,4),(0,0)) = (4/5, −3/5)` appears nowhere in the
output. -/
theorem close_quad_uses_first_segment_normal :
    stroke_to_path triPath bsty = .ok ⟨triOutOps⟩ ∧
    PathOp.MoveTo (3 + 4 / 5 * (1 / 2)) (4 + -(3 / 5) * (1 / 2)) ∉ triOutOps := by
  constructor
  · have hn1 : compute_normal (⟨0, 0⟩ : Point) ⟨3, 0⟩ = .ok ⟨0, 1⟩ := by
      rw [compute_normal_mk 0 0 3 0 3 (by norm_num) (by norm_num)]
      norm_num
    have hn2 : compute_normal (⟨3, 0⟩ : Point) ⟨3, 4⟩ = .ok ⟨-1, 0⟩ := by
      rw [compute_normal_mk 3 0 3 4 4 (by norm_num) (by norm_num)]
      norm_num
    have hn3 : compute_normal (⟨3, 4⟩ : Point) ⟨0, 0⟩ =
        .ok ⟨4 / 5, -(3 / 5)⟩ := by
      rw [compute_normal_mk 3 4 0 0 5 (by norm_num) (by norm_num)]
      norm_num
    have e1 : stroke_step bsty initState (.MoveTo 0 0) =
        .ok ⟨⟨0, 0⟩, ⟨0, 0⟩, none, []⟩ := rfl
    have e2 : stroke_step bsty ⟨⟨0, 0⟩, ⟨0, 0⟩, none, []⟩ (.LineTo 3 0) =
        .ok ⟨⟨3, 0⟩, ⟨0, 1⟩, some (⟨0, 0⟩, ⟨0, 1⟩),
             [.MoveTo 0 (1 / 2), .LineTo 3 (1 / 2), .LineTo 3 (-(1 / 2)),
              .LineTo 0 (-(1 / 2)), .Close]⟩ := by
      rw [stroke_step_lineTo_first bsty ⟨⟨0, 0⟩, ⟨0, 0⟩, none, []⟩ 3 0 ⟨0, 1⟩
        hn1 rfl]
      norm_num [quadOps, bsty]
    have hj1 : join_line
        [.MoveTo 0 (1 / 2), .LineTo 3 (1 / 2), .LineTo 3 (-(1 / 2)),
         .LineTo 0 (-(1 / 2)), .Close] bsty ⟨3, 0⟩ ⟨0, 1⟩ ⟨-1, 0⟩ =
        .ok (bevel
          [.MoveTo 0 (1 / 2), .LineTo 3 (1 / 2), .LineTo 3 (-(1 / 2)),
           .LineTo 0 (-(1 / 2)), .Close] bsty ⟨3, 0⟩ (flip ⟨-1, 0⟩)
          (flip ⟨0, 1⟩)) :=
      join_line_bevel_interior _ bsty _ _ _ rfl
        (Or.inl (by norm_num [dot, perp]))
    have e3 : stroke_step bsty
        ⟨⟨3, 0⟩, ⟨0, 1⟩, some (⟨0, 0⟩, ⟨0, 1⟩),
         [.MoveTo 0 (1 / 2), .LineTo 3 (1 / 2), .LineTo 3 (-(1 / 2)),
          .LineTo 0 (-(1 / 2)), .Close]⟩ (.LineTo 3 4) =
        .ok ⟨⟨3, 4⟩, ⟨-1, 0⟩, some (⟨0, 0⟩, ⟨0, 1⟩),
             [.MoveTo 0 (1 / 2), .LineTo 3 (1 / 2), .LineTo 3 (-(1 / 2)),
                .LineTo 0 (-(1 / 2)), .Close,
              .MoveTo (7 / 2) 0, .LineTo 3 (-(1 / 2)), .LineTo 3 0, .Close,
              .MoveTo (5 / 2) 0, .LineTo (5 / 2) 4, .LineTo (7 / 2) 4,
                .LineTo (7 / 2) 0, .Close]⟩ := by
      rw [stroke_step_lineTo_join bsty
        ⟨⟨3, 0⟩, ⟨0, 1⟩, some (⟨0, 0⟩, ⟨0, 1⟩),
         [.MoveTo 0 (1 / 2), .LineTo 3 (1 / 2), .LineTo 3 (-(1 / 2)),
          .LineTo 0 (-(1 / 2)), .Close]⟩ 3 4 ⟨-1, 0⟩ (⟨0, 0⟩, ⟨0, 1⟩) _
        hn2 rfl hj1]
      norm_num [quadOps, bevel, flip, bsty]
    have hj2 : join_line
        ([.MoveTo 0 (1 / 2), .LineTo 3 (1 / 2), .LineTo 3 (-(1 / 2)),
            .LineTo 0 (-(1 / 2)), .Close,
          .MoveTo (7 / 2) 0, .LineTo 3 (-(1 / 2)), .LineTo 3 0, .Close,
          .MoveTo (5 / 2) 0, .LineTo (5 / 2) 4, .LineTo (7 / 2) 4,
            .LineTo (7 / 2) 0, .Close] ++
         quadOps ⟨3, 4⟩ ⟨0, 0⟩ ⟨0, 1⟩ (bsty.width / 2)) bsty ⟨0, 0⟩
        ⟨4 / 5, -(3 / 5)⟩ ⟨0, 1⟩ =
        .ok (bevel
          ([.MoveTo 0 (1 / 2), .LineTo 3 (1 / 2), .LineTo 3 (-(1 / 2)),
              .LineTo 0 (-(1 / 2)), .Close,
            .MoveTo (7 / 2) 0, .LineTo 3 (-(1 / 2)), .LineTo 3 0, .Close,
            .MoveTo (5 / 2) 0, .LineTo (5 / 2) 4, .LineTo (7 / 2) 4,
              .LineTo (7 / 2) 0, .Close] ++
           quadOps ⟨3, 4⟩ ⟨0, 0⟩ ⟨0, 1⟩ (bsty.width / 2)) bsty ⟨0, 0⟩
          (flip ⟨0, 1⟩) (flip ⟨4 / 5, -(3 / 5)⟩)) :=
      join_line_bevel_interior _ bsty _ _ _ rfl
        (Or.inl (by norm_num [dot, perp]))
    have e4 : stroke_step bsty
        ⟨⟨3, 4⟩, ⟨-1, 0⟩, some (⟨0, 0⟩, ⟨0, 1⟩),
         [.MoveTo 0 (1 / 2), .LineTo 3 (1 / 2), .LineTo 3 (-(1 / 2)),
            .LineTo 0 (-(1 / 2)), .Close,
          .MoveTo (7 / 2) 0, .LineTo 3 (-(1 / 2)), .LineTo 3 0, .Close,
          .MoveTo (5 / 2) 0, .LineTo (5 / 2) 4, .LineTo (7 / 2) 4,
            .LineTo (7 / 2) 0, .Close]⟩ .Close =
        .ok ⟨⟨3, 4⟩, ⟨-1, 0⟩, some (⟨0, 0⟩, ⟨0, 1⟩), triOutOps⟩ := by
      rw [stroke_step_close bsty
        ⟨⟨3, 4⟩, ⟨-1, 0⟩, some (⟨0, 0⟩, ⟨0, 1⟩),
         [.MoveTo 0 (1 / 2), .LineTo 3 (1 / 2), .LineTo 3 (-(1 / 2)),
            .LineTo 0 (-(1 / 2)), .Close,
          .MoveTo (7 / 2) 0, .LineTo 3 (-(1 / 2)), .LineTo 3 0, .Close,
          .MoveTo (5 / 2) 0, .LineTo (5 / 2) 4, .LineTo (7 / 2) 4,
            .LineTo (7 / 2) 0, .Close]⟩ ⟨0, 0⟩ ⟨0, 1⟩ ⟨4 / 5, -(3 / 5)⟩ _
        rfl hn3 hj2]
      norm_num [quadOps, bevel, flip, bsty, triOutOps]
    rw [stroke_to_path]
    simp only [triPath, walk, e1, e2, e3, e4]
    rw [cap_line_butt _ _ _ _ rfl, cap_line_butt _ _ _ _ rfl]
  · norm_num [triOutOps]

end Stroke

namespace Stroke

/-- The closed square path `MoveTo(0,0); LineTo(1,0); LineTo(1,1);
LineTo(0,1); Close`. -/
noncomputable def squarePath : Path :=
  ⟨[.MoveTo 0 0, .LineTo 1 0, .LineTo 1 1, .LineTo 0 1, .Close]⟩

/-- The operations the walk loop emits for `squarePath` with width 1 and
Bevel joins: 4 segment quads but only 3 bevel join triangles (no join is
emitted at the corner `(0,1)` where the implicit closing segment starts). -/
noncomputable def squareWalkOps : List PathOp :=
  [.MoveTo 0 (1 / 2), .LineTo 1 (1 / 2), .LineTo 1 (-(1 / 2)),
     .LineTo 0 (-(1 / 2)), .Close,
   .MoveTo (3 / 2) 0, .LineTo 1 (-(1 / 2)), .LineTo 1 0, .Close,
   .MoveTo (1 / 2) 0, .LineTo (1 / 2) 1, .LineTo (3 / 2) 1, .LineTo (3 / 2) 0,
     .Close,
   .MoveTo 1 (3 / 2), .LineTo (3 / 2) 1, .LineTo 1 1, .Close,
   .MoveTo 1 (1 / 2), .LineTo 0 (1 / 2), .LineTo 0 (3 / 2), .LineTo 1 (3 / 2),
     .Close,
   .MoveTo 0 (3 / 2), .LineTo 0 (1 / 2), .LineTo 0 (-(1 / 2)),
     .LineTo 0 (1 / 2), .Close,
   .MoveTo 0 (-(1 / 2)), .LineTo (-(1 / 2)) 0, .LineTo 0 0, .Close]

/-- The output for `squarePath` with Square caps: because `Close` does not
clear `start_point`, the end-of-input capping still fires and appends two
square cap contours on the explicitly closed subpath. -/
noncomputable def squareCappedOps : List PathOp :=
  squareWalkOps ++
    [.MoveTo 0 (1 / 2), .LineTo (-(1 / 2)) (1 / 2), .LineTo (-(1 / 2)) (3 / 2),
       .LineTo 0 (3 / 2), .Close,
     .MoveTo 0 (-(1 / 2)), .LineTo (-(1 / 2)) (-(1 / 2)),
       .LineTo (-(1 / 2)) (1 / 2), .LineTo 0 (1 / 2), .Close]

lemma square_walk (style : StrokeStyle) (hw : style.width = 1)
    (hj : style.join = .Bevel) :
    walk style initState
      [.MoveTo 0 0, .LineTo 1 0, .LineTo 1 1, .LineTo 0 1, .Close] =
      .ok ⟨⟨0, 1⟩, ⟨0, -1⟩, some (⟨0, 0⟩, ⟨0, 1⟩), squareWalkOps⟩ := by
  have hn1 : compute_normal (⟨0, 0⟩ : Point) ⟨1, 0⟩ = .ok ⟨0, 1⟩ := by
    rw [compute_normal_mk 0 0 1 0 1 one_pos (by norm_num)]
    norm_num
  have hn2 : compute_normal (⟨1, 0⟩ : Point) ⟨1, 1⟩ = .ok ⟨-1, 0⟩ := by
    rw [compute_normal_mk 1 0 1 1 1 one_pos (by norm_num)]
    norm_num
  have hn3 : compute_normal (⟨1, 1⟩ : Point) ⟨0, 1⟩ = .ok ⟨0, -1⟩ := by
    rw [compute_normal_mk 1 1 0 1 1 one_pos (by norm_num)]
    norm_num
  have hn4 : compute_normal (⟨0, 1⟩ : Point) ⟨0, 0⟩ = .ok ⟨1, 0⟩ := by
    rw [compute_normal_mk 0 1 0 0 1 one_pos (by norm_num)]
    norm_num
  have e1 : stroke_step style initState (.MoveTo 0 0) =
      .ok ⟨⟨0, 0⟩, ⟨0, 0⟩, none, []⟩ := rfl
  have e2 : stroke_step style ⟨⟨0, 0⟩, ⟨0, 0⟩, none, []⟩ (.LineTo 1 0) =
      .ok ⟨⟨1, 0⟩, ⟨0, 1⟩, some (⟨0, 0⟩, ⟨0, 1⟩),
           [.MoveTo 0 (1 / 2), .LineTo 1 (1 / 2), .LineTo 1 (-(1 / 2)),
            .LineTo 0 (-(1 / 2)), .Close]⟩ := by
    rw [stroke_step_lineTo_first style ⟨⟨0, 0⟩, ⟨0, 0⟩, none, []⟩ 1 0 ⟨0, 1⟩
      hn1 rfl]
    norm_num [quadOps, hw]
  have hj1 : join_line
      [.MoveTo 0 (1 / 2), .LineTo 1 (1 / 2), .LineTo 1 (-(1 / 2)),
       .LineTo 0 (-(1 / 2)), .Close] style ⟨1, 0⟩ ⟨0, 1⟩ ⟨-1, 0⟩ =
      .ok (bevel
        [.MoveTo 0 (1 / 2), .LineTo 1 (1 / 2), .LineTo 1 (-(1 / 2)),
         .LineTo 0 (-(1 / 2)), .Close] style ⟨1, 0⟩ (flip ⟨-1, 0⟩)
        (flip ⟨0, 1⟩)) :=
    join_line_bevel_interior _ style _ _ _ hj (Or.inl (by norm_num [dot, perp]))
  have e3 : stroke_step style
      ⟨⟨1, 0⟩, ⟨0, 1⟩, some (⟨0, 0⟩, ⟨0, 1⟩),
       [.MoveTo 0 (1 / 2), .LineTo 1 (1 / 2), .LineTo 1 (-(1 / 2)),
        .LineTo 0 (-(1 / 2)), .Close]⟩ (.LineTo 1 1) =
      .ok ⟨⟨1, 1⟩, ⟨-1, 0⟩, some (⟨0, 0⟩, ⟨0, 1⟩),
           [.MoveTo 0 (1 / 2), .LineTo 1 (1 / 2), .LineTo 1 (-(1 / 2)),
              .LineTo 0 (-(1 / 2)), .Close,
            .MoveTo (3 / 2) 0, .LineTo 1 (-(1 / 2)), .LineTo 1 0, .Close,
            .MoveTo (1 / 2) 0, .LineTo (1 / 2) 1, .LineTo (3 / 2) 1,
              .LineTo (3 / 2) 0, .Close]⟩ := by
    rw [stroke_step_lineTo_join style
      ⟨⟨1, 0⟩, ⟨0, 1⟩, some (⟨0, 0⟩, ⟨0, 1⟩),
       [.MoveTo 0 (1 / 2), .LineTo 1 (1 / 2), .LineTo 1 (-(1 / 2)),
        .LineTo 0 (-(1 / 2)), .Close]⟩ 1 1 ⟨-1, 0⟩ (⟨0, 0⟩, ⟨0, 1⟩) _
      hn2 rfl hj1]
    norm_num [quadOps, bevel, flip, hw]
  have hj2 : join_line
      [.MoveTo 0 (1 / 2), .LineTo 1 (1 / 2), .LineTo 1 (-(1 / 2)),
         .LineTo 0 (-(1 / 2)), .Close,
       .MoveTo (3 / 2) 0, .LineTo 1 (-(1 / 2)), .LineTo 1 0, .Close,
       .MoveTo (1 / 2) 0, .LineTo (1 / 2) 1, .LineTo (3 / 2) 1,
         .LineTo (3 / 2) 0, .Close] style ⟨1, 1⟩ ⟨-1, 0⟩ ⟨0, -1⟩ =
      .ok (bevel
        [.MoveTo 0 (1 / 2), .LineTo 1 (1 / 2), .LineTo 1 (-(1 / 2)),
           .LineTo 0 (-(1 / 2)), .Close,
         .MoveTo (3 / 2) 0, .LineTo 1 (-(1 / 2)), .LineTo 1 0, .Close,
         .MoveTo (1 / 2) 0, .LineTo (1 / 2) 1, .LineTo (3 / 2) 1,
           .LineTo (3 / 2) 0, .Close] style ⟨1, 1⟩ (flip ⟨0, -1⟩)
        (flip ⟨-1, 0⟩)) :=
    join_line_bevel_interior _ style _ _ _ hj (Or.inl (by norm_num [dot, perp]))
  have e4 : stroke_step style
      ⟨⟨1, 1⟩, ⟨-1, 0⟩, some (⟨0, 0⟩, ⟨0, 1⟩),
       [.MoveTo 0 (1 / 2), .LineTo 1 (1 / 2), .LineTo 1 (-(1 / 2)),
          .LineTo 0 (-(1 / 2)), .Close,
        .MoveTo (3 / 2) 0, .LineTo 1 (-(1 / 2)), .LineTo 1 0, .Close,
        .MoveTo (1 / 2) 0, .LineTo (1 / 2) 1, .LineTo (3 / 2) 1,
          .LineTo (3 / 2) 0, .Close]⟩ (.LineTo 0 1) =
      .ok ⟨⟨0, 1⟩, ⟨0, -1⟩, some (⟨0, 0⟩, ⟨0, 1⟩),
           [.MoveTo 0 (1 / 2), .LineTo 1 (1 / 2), .LineTo 1 (-(1 / 2)),
              .LineTo 0 (-(1 / 2)), .Close,
            .MoveTo (3 / 2) 0, .LineTo 1 (-(1 / 2)), .LineTo 1 0, .Close,
            .MoveTo (1 / 2) 0, .LineTo (1 / 2) 1, .LineTo (3 / 2) 1,
              .LineTo (3 / 2) 0, .Close,
            .MoveTo 1 (3 / 2), .LineTo (3 / 2) 1, .LineTo 1 1, .Close,
            .MoveTo 1 (1 / 2), .LineTo 0 (1 / 2), .LineTo 0 (3 / 2),
              .LineTo 1 (3 / 2), .Close]⟩ := by
    rw [stroke_step_lineTo_join style
      ⟨⟨1, 1⟩, ⟨-1, 0⟩, some (⟨0, 0⟩, ⟨0, 1⟩),
       [.MoveTo 0 (1 / 2), .LineTo 1 (1 / 2), .LineTo 1 (-(1 / 2)),
          .LineTo 0 (-(1 / 2)), .Close,
        .MoveTo (3 / 2) 0, .LineTo 1 (-(1 / 2)), .LineTo 1 0, .Close,
        .MoveTo (1 / 2) 0, .LineTo (1 / 2) 1, .LineTo (3 / 2) 1,
          .LineTo (3 / 2) 0, .Close]⟩ 0 1 ⟨0, -1⟩ (⟨0, 0⟩, ⟨0, 1⟩) _
      hn3 rfl hj2]
    norm_num [quadOps, bevel, flip, hw]
  have hj3 : join_line
      ([.MoveTo 0 (1 / 2), .LineTo 1 (1 / 2), .LineTo 1 (-(1 / 2)),
          .LineTo 0 (-(1 / 2)), .Close,
        .MoveTo (3 / 2) 0, .LineTo 1 (-(1 / 2)), .LineTo 1 0, .Close,
        .MoveTo (1 / 2) 0, .LineTo (1 / 2) 1, .LineTo (3 / 2) 1,
          .LineTo (3 / 2) 0, .Close,
        .MoveTo 1 (3 / 2), .LineTo (3 / 2) 1, .LineTo 1 1, .Close,
        .MoveTo 1 (1 / 2), .LineTo 0 (1 / 2), .LineTo 0 (3 / 2),
          .LineTo 1 (3 / 2), .Close] ++
       quadOps ⟨0, 1⟩ ⟨0, 0⟩ ⟨0, 1⟩ (style.width / 2)) style ⟨0, 0⟩
      ⟨1, 0⟩ ⟨0, 1⟩ =
      .ok (bevel
        ([.MoveTo 0 (1 / 2), .LineTo 1 (1 / 2), .LineTo 1 (-(1 / 2)),
            .LineTo 0 (-(1 / 2)), .Close,
          .MoveTo (3 / 2) 0, .LineTo 1 (-(1 / 2)), .LineTo 1 0, .Close,
          .MoveTo (1 / 2) 0, .LineTo (1 / 2) 1, .LineTo (3 / 2) 1,
            .LineTo (3 / 2) 0, .Close,
          .MoveTo 1 (3 / 2), .LineTo (3 / 2) 1, .LineTo 1 1, .Close,
          .MoveTo 1 (1 / 2), .LineTo 0 (1 / 2), .LineTo 0 (3 / 2),
            .LineTo 1 (3 / 2), .Close] ++
         quadOps ⟨0, 1⟩ ⟨0, 0⟩ ⟨0, 1⟩ (style.width / 2)) style ⟨0, 0⟩
        (flip ⟨0, 1⟩) (flip ⟨1, 0⟩)) :=
    join_line_bevel_interior _ style _ _ _ hj (Or.inl (by norm_num [dot, perp]))
  have e5 : stroke_step style
      ⟨⟨0, 1⟩, ⟨0, -1⟩, some (⟨0, 0⟩, ⟨0, 1⟩),
       [.MoveTo 0 (1 / 2), .LineTo 1 (1 / 2), .LineTo 1 (-(1 / 2)),
          .LineTo 0 (-(1 / 2)), .Close,
        .MoveTo (3 / 2) 0, .LineTo 1 (-(1 / 2)), .LineTo 1 0, .Close,
        .MoveTo (1 / 2) 0, .LineTo (1 / 2) 1, .LineTo (3 / 2) 1,
          .LineTo (3 / 2) 0, .Close,
        .MoveTo 1 (3 / 2), .LineTo (3 / 2) 1, .LineTo 1 1, .Close,
        .MoveTo 1 (1 / 2), .LineTo 0 (1 / 2), .LineTo 0 (3 / 2),
          .LineTo 1 (3 / 2), .Close]⟩ .Close =
      .ok ⟨⟨0, 1⟩, ⟨0, -1⟩, some (⟨0, 0⟩, ⟨0, 1⟩), squareWalkOps⟩ := by
    rw [stroke_step_close style
      ⟨⟨0, 1⟩, ⟨0, -1⟩, some (⟨0, 0⟩, ⟨0, 1⟩),
       [.MoveTo 0 (1 / 2), .LineTo 1 (1 / 2), .LineTo 1 (-(1 / 2)),
          .LineTo 0 (-(1 / 2)), .Close,
        .MoveTo (3 / 2) 0, .LineTo 1 (-(1 / 2)), .LineTo 1 0, .Close,
        .MoveTo (1 / 2) 0, .LineTo (1 / 2) 1, .LineTo (3 / 2) 1,
          .LineTo (3 / 2) 0, .Close,
        .MoveTo 1 (3 / 2), .LineTo (3 / 2) 1, .LineTo 1 1, .Close,
        .MoveTo 1 (1 / 2), .LineTo 0 (1 / 2), .LineTo 0 (3 / 2),
          .LineTo 1 (3 / 2), .Close]⟩ ⟨0, 0⟩ ⟨0, 1⟩ ⟨1, 0⟩ _ rfl hn4 hj3]
    norm_num [quadOps, bevel, flip, hw, squareWalkOps]
  simp only [walk, e1, e2, e3, e4, e5]

/-- C2 (code bug): `Close` neither clears the walker's subpath-start state
nor emits a join where the closing segment starts.  With Butt caps the
Bevel-joined unit square yields 7 contours (4 quads + only 3 join
triangles), not the claimed 8; and because `start_point` survives the
`Close`, the end-of-input capping still fires: with Square caps the same
path yields 9 contours, two of them caps on an explicitly closed subpath. -/
theorem close_leaves_subpath_state :
    (stroke_to_path squarePath bsty = .ok ⟨squareWalkOps⟩ ∧
     countContours squareWalkOps = 7) ∧
    (stroke_to_path squarePath sqsty = .ok ⟨squareCappedOps⟩ ∧
     countContours squareCappedOps = 9) := by
  refine ⟨⟨?_, rfl⟩, ⟨?_, rfl⟩⟩
  · rw [stroke_to_path]
    simp only [squarePath, square_walk bsty rfl rfl]
    rw [cap_line_butt _ _ _ _ rfl, cap_line_butt _ _ _ _ rfl]
  · rw [stroke_to_path]
    simp only [squarePath, square_walk sqsty rfl rfl]
    rw [cap_line_square _ _ _ _ rfl, cap_line_square _ _ _ _ rfl]
    norm_num [sqsty, flip, squareWalkOps, squareCappedOps]

end Stroke

namespace Stroke

/-- Operations allowed in the body of a contour (between the opening
`MoveTo` and the terminating `Close`). -/
def isBodyOp : PathOp → Bool
  | .LineTo _ _ => true
  | .CubicTo _ _ _ _ _ _ => true
  | _ => false

/-- An operation list that is a concatenation of well-formed contours: each
contour starts with a `MoveTo`, continues with `LineTo`/`CubicTo` body
operations only, and ends with a `Close`. -/
inductive Contoured : List PathOp → Prop where
  | nil : Contoured []
  | contour (x y : ℝ) (mid rest : List PathOp)
      (hmid : ∀ op ∈ mid, isBodyOp op = true) (hrest : Contoured rest) :
      Contoured (.MoveTo x y :: (mid ++ [.Close] ++ rest))

lemma contoured_append {l1 l2 : List PathOp} (h1 : Contoured l1)
    (h2 : Contoured l2) : Contoured (l1 ++ l2) := by
  induction h1 with
  | nil => simpa using h2
  | contour x y mid rest hmid hrest ih =>
      have : (PathOp.MoveTo x y :: (mid ++ [.Close] ++ rest)) ++ l2 =
          .MoveTo x y :: (mid ++ [.Close] ++ (rest ++ l2)) := by
        simp
      rw [this]
      exact .contour x y mid (rest ++ l2) hmid ih

lemma contoured_single (x y : ℝ) (mid : List PathOp)
    (h : ∀ op ∈ mid, isBodyOp op = true) :
    Contoured (.MoveTo x y :: (mid ++ [.Close])) := by
  have := Contoured.contour x y mid [] h .nil
  simpa using this

lemma quadOps_contoured (p0 p1 : Point) (n : Vector) (w : ℝ) :
    Contoured (quadOps p0 p1 n w) :=
  contoured_single (p0.x + n.x * w) (p0.y + n.y * w)
    [.LineTo (p1.x + n.x * w) (p1.y + n.y * w),
     .LineTo (p1.x + -n.x * w) (p1.y + -n.y * w),
     .LineTo (p0.x - n.x * w) (p0.y - n.y * w)]
    (by
      intro op hop
      simp only [List.mem_cons, List.not_mem_nil, or_false] at hop
      rcases hop with rfl | rfl | rfl <;> rfl)

lemma arc_segment_shape (p : List PathOp) (xc yc r : ℝ) (a b : Vector) :
    ∃ c, arc_segment p xc yc r a b = p ++ [c] ∧ isBodyOp c = true :=
  ⟨_, rfl, rfl⟩

lemma arc_shape (p : List PathOp) (xc yc r : ℝ) (a b : Vector) :
    ∃ c1 c2, arc p xc yc r a b = p ++ [c1, c2] ∧
      isBodyOp c1 = true ∧ isBodyOp c2 = true := by
  obtain ⟨c1, h1, hb1⟩ := arc_segment_shape p xc yc r a (bisect a b)
  obtain ⟨c2, h2, hb2⟩ :=
    arc_segment_shape (arc_segment p xc yc r a (bisect a b)) xc yc r
      (bisect a b) b
  refine ⟨c1, c2, ?_, hb1, hb2⟩
  rw [arc, h2, h1]
  simp

lemma bevel_contoured (dest : List PathOp) (style : StrokeStyle) (pt : Point)
    (a b : Vector) (h : Contoured dest) :
    Contoured (bevel dest style pt a b) := by
  rw [bevel]
  exact contoured_append h
    (contoured_single _ _
      [.LineTo (pt.x + b.x * (style.width / 2)) (pt.y + b.y * (style.width / 2)),
       .LineTo pt.x pt.y]
      (by
        intro op hop
        simp only [List.mem_cons, List.not_mem_nil, or_false] at hop
        rcases hop with rfl | rfl <;> rfl))

lemma cap_line_contoured (dest : List PathOp) (style : StrokeStyle)
    (pt : Point) (n : Vector) (h : Contoured dest) :
    Contoured (cap_line dest style pt n) := by
  rw [cap_line]
  cases hc : style.cap
  case Butt => exact h
  case Round =>
      obtain ⟨c1, c2, harc, hb1, hb2⟩ := arc_shape
        (dest ++ [.MoveTo (pt.x + n.x * (style.width / 2))
                          (pt.y + n.y * (style.width / 2))])
        pt.x pt.y (style.width / 2) n (flip n)
      dsimp only
      rw [harc]
      have hre : (dest ++ [PathOp.MoveTo (pt.x + n.x * (style.width / 2))
            (pt.y + n.y * (style.width / 2))]) ++ [c1, c2] ++ [.Close] =
          dest ++ (.MoveTo (pt.x + n.x * (style.width / 2))
            (pt.y + n.y * (style.width / 2)) :: ([c1, c2] ++ [.Close])) := by
        simp
      rw [hre]
      refine contoured_append h (contoured_single _ _ [c1, c2] ?_)
      intro op hop
      simp only [List.mem_cons, List.not_mem_nil, or_false] at hop
      rcases hop with rfl | rfl
      · exact hb1
      · exact hb2
  case Square =>
      dsimp only
      exact contoured_append h
        (contoured_single _ _ [_, _, _]
          (by
            intro op hop
            simp only [List.mem_cons, List.not_mem_nil, or_false] at hop
            rcases hop with rfl | rfl | rfl <;> rfl))

lemma join_line_exterior_round_eq (dest : List PathOp) (style : StrokeStyle)
    (pt : Point) (s1 s2 : Vector) (hj : style.join = .Round) :
    join_line_exterior dest style pt s1 s2 =
      .ok ((arc (dest ++ [.MoveTo (pt.x + s1.x * (style.width / 2))
                                  (pt.y + s1.y * (style.width / 2))])
              pt.x pt.y (style.width / 2) s1 s2)
            ++ [.LineTo pt.x pt.y, .Close]) := by
  rw [join_line_exterior, hj]

lemma join_line_exterior_contoured (dest : List PathOp) (style : StrokeStyle)
    (pt : Point) (t1 t2 : Vector) (d : List PathOp) (h : Contoured dest)
    (hj : join_line_exterior dest style pt t1 t2 = .ok d) : Contoured d := by
  cases hsj : style.join
  case Round =>
      rw [join_line_exterior_round_eq _ _ _ _ _ hsj] at hj
      obtain ⟨c1, c2, harc, hb1, hb2⟩ := arc_shape
        (dest ++ [.MoveTo (pt.x + t1.x * (style.width / 2))
                          (pt.y + t1.y * (style.width / 2))])
        pt.x pt.y (style.width / 2) t1 t2
      rw [harc] at hj
      have hd := Except.ok.inj hj
      rw [← hd]
      have hre : (dest ++ [PathOp.MoveTo (pt.x + t1.x * (style.width / 2))
            (pt.y + t1.y * (style.width / 2))]) ++ [c1, c2] ++
            [.LineTo pt.x pt.y, .Close] =
          dest ++ (.MoveTo (pt.x + t1.x * (style.width / 2))
            (pt.y + t1.y * (style.width / 2)) ::
              ([c1, c2, .LineTo pt.x pt.y] ++ [.Close])) := by
        simp
      rw [hre]
      refine contoured_append h (contoured_single _ _ [c1, c2, _] ?_)
      intro op hop
      simp only [List.mem_cons, List.not_mem_nil, or_false] at hop
      rcases hop with rfl | rfl | rfl
      · exact hb1
      · exact hb2
      · rfl
  case Mitre =>
      rw [join_line_exterior_mitre_eq _ _ _ _ _ hsj] at hj
      by_cases hc : 2 ≤ style.mitre_limit * style.mitre_limit *
          (1 - (-t1.x * t2.x + -t1.y * t2.y))
      · rw [if_pos hc] at hj
        cases hli : line_intersection
            ⟨pt.x + t1.x * (style.width / 2), pt.y + t1.y * (style.width / 2)⟩
            t1
            ⟨pt.x + t2.x * (style.width / 2), pt.y + t2.y * (style.width / 2)⟩
            t2 with
        | error e =>
            rw [hli] at hj
            exact Except.noConfusion hj
        | ok P =>
            rw [hli] at hj
            have hd := Except.ok.inj hj
            rw [← hd]
            exact contoured_append h
              (contoured_single _ _ [_, _, _]
                (by
                  intro op hop
                  simp only [List.mem_cons, List.not_mem_nil, or_false] at hop
                  rcases hop with rfl | rfl | rfl <;> rfl))
      · rw [if_neg hc] at hj
        have hd := Except.ok.inj hj
        rw [← hd]
        exact bevel_contoured _ _ _ _ _ h
  case Bevel =>
      rw [join_line_exterior_bevel_eq _ _ _ _ _ hsj] at hj
      have hd := Except.ok.inj hj
      rw [← hd]
      exact bevel_contoured _ _ _ _ _ h

lemma join_line_contoured (dest : List PathOp) (style : StrokeStyle)
    (pt : Point) (a b : Vector) (d : List PathOp) (h : Contoured dest)
    (hj : join_line dest style pt a b = .ok d) : Contoured d := by
  rw [join_line] at hj
  by_cases hi : is_interior_angle a b
  · rw [if_pos hi] at hj
    exact join_line_exterior_contoured _ _ _ _ _ _ h hj
  · rw [if_neg hi] at hj
    exact join_line_exterior_contoured _ _ _ _ _ _ h hj

end Stroke

namespace Stroke

lemma stroke_step_contoured (style : StrokeStyle) (s : WalkState) (op : PathOp)
    (s' : WalkState) (h : Contoured s.dest)
    (hs : stroke_step style s op = .ok s') : Contoured s'.dest := by
  cases op with
  | MoveTo x y =>
      simp only [stroke_step] at hs
      cases hsp : s.start_point with
      | none =>
          simp only [hsp] at hs
          have hd := Except.ok.inj hs
          rw [← hd]
          exact h
      | some sp =>
          obtain ⟨p, n⟩ := sp
          simp only [hsp] at hs
          have hd := Except.ok.inj hs
          rw [← hd]
          exact cap_line_contoured _ _ _ _ (cap_line_contoured _ _ _ _ h)
  | LineTo x y =>
      simp only [stroke_step] at hs
      cases hn : compute_normal s.cur ⟨x, y⟩ with
      | error e =>
          simp only [hn] at hs
          exact Except.noConfusion hs
      | ok normal =>
          simp only [hn] at hs
          cases hsp : s.start_point with
          | none =>
              simp only [hsp] at hs
              have hd := Except.ok.inj hs
              rw [← hd]
              exact contoured_append h (quadOps_contoured _ _ _ _)
          | some sp =>
              simp only [hsp] at hs
              cases hjl : join_line s.dest style s.cur s.last_normal normal with
              | error e =>
                  simp only [hjl] at hs
                  exact Except.noConfusion hs
              | ok d =>
                  simp only [hjl] at hs
                  have hd := Except.ok.inj hs
                  rw [← hd]
                  exact contoured_append
                    (join_line_contoured _ _ _ _ _ _ h hjl)
                    (quadOps_contoured _ _ _ _)
  | Close =>
      simp only [stroke_step] at hs
      cases hsp : s.start_point with
      | none =>
          simp only [hsp] at hs
          have hd := Except.ok.inj hs
          rw [← hd]
          exact h
      | some sp =>
          obtain ⟨p, n⟩ := sp
          simp only [hsp] at hs
          cases hn : compute_normal s.cur p with
          | error e =>
              simp only [hn] at hs
              exact Except.noConfusion hs
          | ok ln =>
              simp only [hn] at hs
              cases hjl : join_line (s.dest ++ quadOps s.cur p n
                  (style.width / 2)) style p ln n with
              | error e =>
                  simp only [hjl] at hs
                  exact Except.noConfusion hs
              | ok d =>
                  simp only [hjl] at hs
                  have hd := Except.ok.inj hs
                  rw [← hd]
                  exact join_line_contoured _ _ _ _ _ _
                    (contoured_append h (quadOps_contoured _ _ _ _)) hjl
  | QuadTo cx cy x y =>
      simp only [stroke_step] at hs
      exact Except.noConfusion hs
  | CubicTo c1x c1y c2x c2y x y =>
      simp only [stroke_step] at hs
      exact Except.noConfusion hs

lemma walk_contoured (style : StrokeStyle) :
    ∀ (ops : List PathOp) (s s' : WalkState), Contoured s.dest →
      walk style s ops = .ok s' → Contoured s'.dest := by
  intro ops
  induction ops with
  | nil =>
      intro s s' h hw
      rw [walk] at hw
      have hd := Except.ok.inj hw
      rw [← hd]
      exact h
  | cons op rest ih =>
      intro s s' h hw
      rw [walk] at hw
      cases hst : stroke_step style s op with
      | error e =>
          simp only [hst] at hw
          exact Except.noConfusion hw
      | ok s1 =>
          simp only [hst] at hw
          exact ih s1 s' (stroke_step_contoured style s op s1 h hst) hw

/-- C3 (amended): the output of a successful `stroke_to_path` is a
concatenation of independently well-formed contours — each one move-to
started, with a `LineTo`/`CubicTo` body, and close-terminated — but distinct
contours MAY share vertices (the original claim's disjointness is refuted by
the counterexample). -/
theorem output_is_contoured (path : Path) (style : StrokeStyle) (out : Path)
    (h : stroke_to_path path style = .ok out) : Contoured out.ops := by
  rw [stroke_to_path] at h
  cases hw : walk style initState path.ops with
  | error e =>
      simp only [hw] at h
      exact Except.noConfusion h
  | ok s =>
      simp only [hw] at h
      have hs : Contoured s.dest :=
        walk_contoured style path.ops initState s Contoured.nil hw
      cases hsp : s.start_point with
      | none =>
          simp only [hsp] at h
          have hd := Except.ok.inj h
          rw [← hd]
          exact hs
      | some sp =>
          obtain ⟨p, n⟩ := sp
          simp only [hsp] at h
          have hd := Except.ok.inj h
          rw [← hd]
          exact cap_line_contoured _ _ _ _ (cap_line_contoured _ _ _ _ hs)

/-- Witness for C3 (amended) at the single-segment Butt stroke. -/
theorem output_is_contoured_witness :
    Contoured [.MoveTo 0 (1 / 2), .LineTo 10 (1 / 2), .LineTo 10 (-(1 / 2)),
               .LineTo 0 (-(1 / 2)), .Close] :=
  output_is_contoured ⟨[.MoveTo 0 0, .LineTo 10 0]⟩ bsty
    ⟨[.MoveTo 0 (1 / 2), .LineTo 10 (1 / 2), .LineTo 10 (-(1 / 2)),
      .LineTo 0 (-(1 / 2)), .Close]⟩ (seg10_eval bsty rfl rfl)

/-- The two-segment elbow path `MoveTo(0,0); LineTo(1,0); LineTo(1,1)`. -/
noncomputable def elbowPath : Path := ⟨[.MoveTo 0 0, .LineTo 1 0, .LineTo 1 1]⟩

/-- First segment quad of the stroked elbow. -/
noncomputable def elbowQuad1 : List PathOp :=
  [.MoveTo 0 (1 / 2), .LineTo 1 (1 / 2), .LineTo 1 (-(1 / 2)),
   .LineTo 0 (-(1 / 2)), .Close]

/-- Bevel join triangle of the stroked elbow at the corner `(1,0)`. -/
noncomputable def elbowTri : List PathOp :=
  [.MoveTo (3 / 2) 0, .LineTo 1 (-(1 / 2)), .LineTo 1 0, .Close]

/-- Second segment quad of the stroked elbow. -/
noncomputable def elbowQuad2 : List PathOp :=
  [.MoveTo (1 / 2) 0, .LineTo (1 / 2) 1, .LineTo (3 / 2) 1, .LineTo (3 / 2) 0,
   .Close]

/-- C3 counterexample: the stroked elbow consists of the three contours
quad–triangle–quad, and the vertex `(1, −1/2)` is emitted both in the first
segment's quad contour and in the bevel join's triangle contour, so two
distinct move-to…close contours share a vertex. -/
theorem contours_share_vertices :
    stroke_to_path elbowPath bsty =
      .ok ⟨elbowQuad1 ++ elbowTri ++ elbowQuad2⟩ ∧
    PathOp.LineTo 1 (-(1 / 2)) ∈ elbowQuad1 ∧
    PathOp.LineTo 1 (-(1 / 2)) ∈ elbowTri := by
  refine ⟨?_, by simp [elbowQuad1], by simp [elbowTri]⟩
  have hn1 : compute_normal (⟨0, 0⟩ : Point) ⟨1, 0⟩ = .ok ⟨0, 1⟩ := by
    rw [compute_normal_mk 0 0 1 0 1 one_pos (by norm_num)]
    norm_num
  have hn2 : compute_normal (⟨1, 0⟩ : Point) ⟨1, 1⟩ = .ok ⟨-1, 0⟩ := by
    rw [compute_normal_mk 1 0 1 1 1 one_pos (by norm_num)]
    norm_num
  have e1 : stroke_step bsty initState (.MoveTo 0 0) =
      .ok ⟨⟨0, 0⟩, ⟨0, 0⟩, none, []⟩ := rfl
  have e2 : stroke_step bsty ⟨⟨0, 0⟩, ⟨0, 0⟩, none, []⟩ (.LineTo 1 0) =
      .ok ⟨⟨1, 0⟩, ⟨0, 1⟩, some (⟨0, 0⟩, ⟨0, 1⟩), elbowQuad1⟩ := by
    rw [stroke_step_lineTo_first bsty ⟨⟨0, 0⟩, ⟨0, 0⟩, none, []⟩ 1 0 ⟨0, 1⟩
      hn1 rfl]
    norm_num [quadOps, bsty, elbowQuad1]
  have hj1 : join_line elbowQuad1 bsty ⟨1, 0⟩ ⟨0, 1⟩ ⟨-1, 0⟩ =
      .ok (bevel elbowQuad1 bsty ⟨1, 0⟩ (flip ⟨-1, 0⟩) (flip ⟨0, 1⟩)) :=
    join_line_bevel_interior _ bsty _ _ _ rfl (Or.inl (by norm_num [dot, perp]))
  have e3 : stroke_step bsty
      ⟨⟨1, 0⟩, ⟨0, 1⟩, some (⟨0, 0⟩, ⟨0, 1⟩), elbowQuad1⟩ (.LineTo 1 1) =
      .ok ⟨⟨1, 1⟩, ⟨-1, 0⟩, some (⟨0, 0⟩, ⟨0, 1⟩),
           elbowQuad1 ++ elbowTri ++ elbowQuad2⟩ := by
    rw [stroke_step_lineTo_join bsty
      ⟨⟨1, 0⟩, ⟨0, 1⟩, some (⟨0, 0⟩, ⟨0, 1⟩), elbowQuad1⟩ 1 1 ⟨-1, 0⟩
      (⟨0, 0⟩, ⟨0, 1⟩) _ hn2 rfl hj1]
    norm_num [quadOps, bevel, flip, bsty, elbowQuad1, elbowTri, elbowQuad2]
  rw [stroke_to_path]
  simp only [elbowPath, walk, e1, e2, e3]
  rw [cap_line_butt _ _ _ _ rfl, cap_line_butt _ _ _ _ rfl]

end Stroke
